import Mathlib

/-!
Verification of the docle email-verification engine.

Each definition is a shallow embedding of a function of the repository:

* `computeStatus`, `computeConfidence` — `server/utils/email.ts` (fusion engine)
* `interpretAndFinish`, `isUserUnknownResponse` — `server/utils/smtp.ts`
* `checkRequestRate`, `checkDailyEmailCap`, `acquireConcurrency`,
  `releaseConcurrency` — `server/utils/rate-limit.ts`
* `lookupMx`, `fallbackToAddressRecord` — `server/utils/dns-cache.ts`
* `analyzeLocalPartFlags` — `server/utils/pattern-analysis.ts`
* `verifyAdmission` — the admission part of the `/api/verify` handler

JavaScript numbers are modelled as `Int` (scores) or `Nat` (counters and
millisecond timestamps); nullable values as `Option`; thrown HTTP errors as
`Except`.
-/

/-- Verification status, from `types/verify` (`Valid | Risky | Invalid | Unknown`). -/
inductive VerifyStatus where
  | valid
  | risky
  | invalid
  | unknown
deriving DecidableEq, Repr

/-- SMTP verdict, from `server/utils/smtp.ts`
(`accepted | rejected | catch-all | greylisted | error`). -/
inductive SmtpVerdict where
  | accepted
  | rejected
  | catchAll
  | greylisted
  | error
deriving DecidableEq, Repr

/-- `ProviderSignals` of `server/utils/email.ts`.  Every optional
`boolean | null` field is an `Option Bool` (`none` = null/undefined; an absent
`providers` object behaves exactly like one with every field undefined, so the
object itself is not optional here).  `isMajorProvider` is only ever tested for
truthiness, so `undefined` collapses to `false`. -/
structure ProviderSignals where
  microsoftExists : Option Bool
  hasGravatar : Option Bool
  hasGitHub : Option Bool
  hasPgpKey : Option Bool
  googleExists : Option Bool
  appleExists : Option Bool
  hibpBreached : Option Bool
  isMajorProvider : Bool
deriving DecidableEq, Repr

/-- The `domainHealth` argument `\x7b hasSPF, hasDMARC \x7d` of `computeConfidence`. -/
structure DomainHealth where
  hasSPF : Bool
  hasDMARC : Bool
deriving DecidableEq, Repr

/-- `IntelSignals` of `server/utils/email.ts`.  `isParked` and `blacklisted`
are only tested for truthiness, so they collapse to `Bool`; `looksHuman` is
compared with `=== false`, so it stays an `Option Bool`. -/
structure IntelSignals where
  websiteAlive : Option Bool
  isParked : Bool
  domainAgeDays : Option Int
  blacklisted : Bool
  looksHuman : Option Bool
  patternFlags : List String
deriving DecidableEq, Repr

/-- The SMTP-verdict base score of `computeConfidence`
(`server/utils/email.ts`): accepted 85, rejected 3, catch-all 45,
greylisted 40, error/null 65 for a major provider else 35. -/
def baseScore (smtp : Option SmtpVerdict) (isMajor : Bool) : Int :=
  match smtp with
  | some .accepted => 85
  | some .rejected => 3
  | some .catchAll => 45
  | some .greylisted => 40
  | some .error => if isMajor then 65 else 35
  | none => if isMajor then 65 else 35

/-- The provider floor/ceiling block of `computeConfidence`, in source order:
Microsoft floor 93 / ceiling 5, Google floor 94 / ceiling 5, Apple floor 93 /
ceiling 5, Gravatar floor 80, GitHub floor 82, PGP floor 80, HIBP floor 78. -/
def applyProviderScores (p : ProviderSignals) (s : Int) : Int :=
  let s1 := if p.microsoftExists = some true then max s 93 else s
  let s2 := if p.microsoftExists = some false then min s1 5 else s1
  let s3 := if p.googleExists = some true then max s2 94 else s2
  let s4 := if p.googleExists = some false then min s3 5 else s3
  let s5 := if p.appleExists = some true then max s4 93 else s4
  let s6 := if p.appleExists = some false then min s5 5 else s5
  let s7 := if p.hasGravatar = some true then max s6 80 else s6
  let s8 := if p.hasGitHub = some true then max s7 82 else s7
  let s9 := if p.hasPgpKey = some true then max s8 80 else s8
  if p.hibpBreached = some true then max s9 78 else s9

/-- `if (implicitMx && score > 50) score -= 15` of `computeConfidence`. -/
def applyImplicitMx (implicitMx : Bool) (s : Int) : Int :=
  if implicitMx = true ∧ s > 50 then s - 15 else s

/-- The SPF/DMARC adjustment of `computeConfidence`: both present +3,
neither present −10, otherwise unchanged; no-op without a health record. -/
def applyHealth (dh : Option DomainHealth) (s : Int) : Int :=
  match dh with
  | some h =>
      if h.hasSPF = true ∧ h.hasDMARC = true then s + 3
      else if h.hasSPF = false ∧ h.hasDMARC = false then s - 10
      else s
  | none => s

/-- The `domainAgeDays != null && domainAgeDays < 30` penalty of
`computeConfidence`. -/
def agePenalty (age : Option Int) (s : Int) : Int :=
  match age with
  | some d => if d < 30 then s - 15 else s
  | none => s

/-- The intel-signal adjustments of `computeConfidence`, in source order. -/
def applyIntel (i : IntelSignals) (s : Int) : Int :=
  let s1 := if i.websiteAlive = some false then s - 10 else s
  let s2 := if i.isParked = true then s1 - 15 else s1
  let s3 := if i.blacklisted = true then s2 - 20 else s2
  let s4 := agePenalty i.domainAgeDays s3
  let s5 := if i.looksHuman = some false then s4 - 10 else s4
  if i.patternFlags.length > 0 then s5 - 5 else s5

/-- `applyIntel` lifted over the optional `intel` argument. -/
def applyIntelOpt (i : Option IntelSignals) (s : Int) : Int :=
  match i with
  | some intel => applyIntel intel s
  | none => s

/-- One step of the risk-flag loop of `computeConfidence`: a
"Disposable domain" flag caps the score at 25, a "Role-based address" flag
subtracts 10. -/
def applyRiskFlag (s : Int) (flag : String) : Int :=
  let s1 := if flag = "Disposable domain" then min s 25 else s
  if flag = "Role-based address" then s1 - 10 else s1

/-- The `for (const flag of riskFlags)` loop of `computeConfidence`. -/
def applyRiskFlags (riskFlags : List String) (s : Int) : Int :=
  riskFlags.foldl applyRiskFlag s

/-- The final `Math.max(0, Math.min(97, score))` clamp of `computeConfidence`. -/
def clampScore (s : Int) : Int :=
  max 0 (min 97 s)

/-- `computeConfidence` of `server/utils/email.ts`: early returns 0 (bad
syntax), 20 (MX unknown), 5 (no MX), then the SMTP base score pushed through
the provider floors/ceilings, the implicit-MX, SPF/DMARC, intel and risk-flag
adjustments, clamped to [0, 97]. -/
def computeConfidence (syntaxOk : Bool) (mx : Option Bool)
    (smtp : Option SmtpVerdict) (riskFlags : List String) (implicitMx : Bool)
    (domainHealth : Option DomainHealth) (providers : ProviderSignals)
    (intel : Option IntelSignals) : Int :=
  if syntaxOk = false then 0
  else if mx = none then 20
  else if mx = some false then 5
  else
    clampScore (applyRiskFlags riskFlags
      (applyIntelOpt intel
        (applyHealth domainHealth
          (applyImplicitMx implicitMx
            (applyProviderScores providers
              (baseScore smtp providers.isMajorProvider))))))

/-- `computeStatus` of `server/utils/email.ts` (first matching rule wins).
`domain` is `string | null`; `!domain` is true for both `null` and `""`. -/
def computeStatus (syntaxOk : Bool) (domain : Option String) (mx : Option Bool)
    (smtp : Option SmtpVerdict) (riskFlags : List String)
    (providers : ProviderSignals) : VerifyStatus :=
  if syntaxOk = false ∨ domain = none ∨ domain = some "" then .invalid
  else if mx = none then .unknown
  else if mx = some false then .invalid
  else if smtp = some .rejected ∧ providers.microsoftExists ≠ some true
      ∧ providers.googleExists ≠ some true
      ∧ providers.appleExists ≠ some true then .invalid
  else if providers.microsoftExists = some false then .invalid
  else if providers.googleExists = some false then .invalid
  else if providers.appleExists = some false then .invalid
  else if providers.microsoftExists = some true ∧ riskFlags = [] then .valid
  else if providers.googleExists = some true ∧ riskFlags = [] then .valid
  else if providers.appleExists = some true ∧ riskFlags = [] then .valid
  else if smtp = some .catchAll then .risky
  else if smtp = some .greylisted then .risky
  else if riskFlags ≠ [] then .risky
  else if smtp = some .accepted then .valid
  else if providers.hasGravatar = some true then .valid
  else if providers.hasGitHub = some true then .valid
  else if providers.hasPgpKey = some true then .valid
  else if providers.hibpBreached = some true then .valid
  else if providers.isMajorProvider = true ∧ (smtp = some .error ∨ smtp = none)
      then .valid
  else .unknown

lemma clampScore_bounds (s : Int) : 0 ≤ clampScore s ∧ clampScore s ≤ 97 := by
  simp only [clampScore]
  omega

/-- C2: the fusion engine's confidence always lies in [0, 97]; in particular
it is never 98, 99 or 100. -/
theorem confidence_in_range (syntaxOk : Bool) (mx : Option Bool)
    (smtp : Option SmtpVerdict) (riskFlags : List String) (implicitMx : Bool)
    (domainHealth : Option DomainHealth) (providers : ProviderSignals)
    (intel : Option IntelSignals) :
    0 ≤ computeConfidence syntaxOk mx smtp riskFlags implicitMx domainHealth
        providers intel ∧
    computeConfidence syntaxOk mx smtp riskFlags implicitMx domainHealth
        providers intel ≤ 97 := by
  unfold computeConfidence
  split
  · constructor <;> norm_num
  · split
    · constructor <;> norm_num
    · split
      · constructor <;> norm_num
      · exact clampScore_bounds _

lemma applyRiskFlag_le (s : Int) (f : String) : applyRiskFlag s f ≤ s := by
  simp only [applyRiskFlag]
  split_ifs <;> omega

lemma applyRiskFlags_le (l : List String) : ∀ s : Int, applyRiskFlags l s ≤ s := by
  induction l with
  | nil => intro s; simp [applyRiskFlags]
  | cons f t ih =>
      intro s
      calc applyRiskFlags (f :: t) s = applyRiskFlags t (applyRiskFlag s f) := rfl
        _ ≤ applyRiskFlag s f := ih _
        _ ≤ s := applyRiskFlag_le s f

lemma agePenalty_le (a : Option Int) (s : Int) : agePenalty a s ≤ s := by
  cases a with
  | none => simp [agePenalty]
  | some d =>
      simp only [agePenalty]
      split <;> omega

lemma applyIntel_le (i : IntelSignals) (s : Int) : applyIntel i s ≤ s := by
  cases hA : i.domainAgeDays with
  | none =>
      simp only [applyIntel, hA, agePenalty]
      split_ifs <;> omega
  | some d =>
      simp only [applyIntel, hA, agePenalty]
      split_ifs <;> omega

lemma applyIntelOpt_le (i : Option IntelSignals) (s : Int) : applyIntelOpt i s ≤ s := by
  cases i with
  | none => simp [applyIntelOpt]
  | some intel => exact applyIntel_le intel s

lemma applyImplicitMx_le (b : Bool) (s : Int) : applyImplicitMx b s ≤ s := by
  simp only [applyImplicitMx]
  split <;> omega

lemma applyHealth_le (dh : Option DomainHealth) (s : Int)
    (hdh : dh ≠ some ⟨true, true⟩) : applyHealth dh s ≤ s := by
  cases dh with
  | none => simp [applyHealth]
  | some h =>
      obtain ⟨x, y⟩ := h
      simp only [applyHealth]
      split_ifs with h1 h2
      · exact absurd (by simp [h1.1, h1.2]) hdh
      · omega
      · omega

lemma clampScore_le_5 (s : Int) (h : s ≤ 5) : clampScore s ≤ 5 := by
  simp only [clampScore]
  omega

lemma applyProviderScores_le (p : ProviderSignals) (s : Int)
    (hms : p.microsoftExists ≠ some true)
    (hg : p.googleExists ≠ some true) (ha : p.appleExists ≠ some true)
    (hgrav : p.hasGravatar ≠ some true) (hgh : p.hasGitHub ≠ some true)
    (hpgp : p.hasPgpKey ≠ some true) (hhibp : p.hibpBreached ≠ some true) :
    applyProviderScores p s ≤ s := by
  simp only [applyProviderScores, if_neg hms, if_neg hg, if_neg ha,
    if_neg hgrav, if_neg hgh, if_neg hpgp, if_neg hhibp]
  split_ifs <;> omega

lemma applyProviderScores_le_5 (p : ProviderSignals) (s : Int)
    (hg : p.googleExists ≠ some true) (ha : p.appleExists ≠ some true)
    (hgrav : p.hasGravatar ≠ some true) (hgh : p.hasGitHub ≠ some true)
    (hpgp : p.hasPgpKey ≠ some true) (hhibp : p.hibpBreached ≠ some true)
    (hfalse : p.microsoftExists = some false ∨ p.googleExists = some false
      ∨ p.appleExists = some false) :
    applyProviderScores p s ≤ 5 := by
  rcases hfalse with h | h | h
  · have hms : p.microsoftExists ≠ some true := by simp [h]
    simp only [applyProviderScores, if_neg hms, if_pos h, if_neg hg, if_neg ha,
      if_neg hgrav, if_neg hgh, if_neg hpgp, if_neg hhibp]
    split_ifs <;> omega
  · simp only [applyProviderScores, if_neg hg, if_pos h, if_neg ha,
      if_neg hgrav, if_neg hgh, if_neg hpgp, if_neg hhibp]
    split_ifs <;> omega
  · simp only [applyProviderScores, if_neg hg, if_neg ha, if_pos h,
      if_neg hgrav, if_neg hgh, if_neg hpgp, if_neg hhibp]
    split_ifs <;> omega

lemma computeStatus_invalid_cases (domain : Option String)
    (smtp : Option SmtpVerdict) (riskFlags : List String) (p : ProviderSignals)
    (hd1 : domain ≠ none) (hd2 : domain ≠ some "")
    (h : computeStatus true domain (some true) smtp riskFlags p = .invalid) :
    (smtp = some .rejected ∧ p.microsoftExists ≠ some true
      ∧ p.googleExists ≠ some true ∧ p.appleExists ≠ some true)
    ∨ p.microsoftExists = some false ∨ p.googleExists = some false
    ∨ p.appleExists = some false := by
  by_cases hms : p.microsoftExists = some false
  · exact Or.inr (Or.inl hms)
  by_cases hg : p.googleExists = some false
  · exact Or.inr (Or.inr (Or.inl hg))
  by_cases ha : p.appleExists = some false
  · exact Or.inr (Or.inr (Or.inr ha))
  by_cases hrej : smtp = some .rejected ∧ p.microsoftExists ≠ some true
      ∧ p.googleExists ≠ some true ∧ p.appleExists ≠ some true
  · exact Or.inl hrej
  exfalso
  unfold computeStatus at h
  rw [if_neg (by simp [hd1, hd2]), if_neg (by simp), if_neg (by simp),
    if_neg hrej, if_neg hms, if_neg hg, if_neg ha] at h
  by_cases h8 : p.microsoftExists = some true ∧ riskFlags = []
  · rw [if_pos h8] at h; exact absurd h (by decide)
  rw [if_neg h8] at h
  by_cases h9 : p.googleExists = some true ∧ riskFlags = []
  · rw [if_pos h9] at h; exact absurd h (by decide)
  rw [if_neg h9] at h
  by_cases h10 : p.appleExists = some true ∧ riskFlags = []
  · rw [if_pos h10] at h; exact absurd h (by decide)
  rw [if_neg h10] at h
  by_cases h11 : smtp = some .catchAll
  · rw [if_pos h11] at h; exact absurd h (by decide)
  rw [if_neg h11] at h
  by_cases h12 : smtp = some .greylisted
  · rw [if_pos h12] at h; exact absurd h (by decide)
  rw [if_neg h12] at h
  by_cases h13 : riskFlags ≠ []
  · rw [if_pos h13] at h; exact absurd h (by decide)
  rw [if_neg h13] at h
  by_cases h14 : smtp = some .accepted
  · rw [if_pos h14] at h; exact absurd h (by decide)
  rw [if_neg h14] at h
  by_cases h15 : p.hasGravatar = some true
  · rw [if_pos h15] at h; exact absurd h (by decide)
  rw [if_neg h15] at h
  by_cases h16 : p.hasGitHub = some true
  · rw [if_pos h16] at h; exact absurd h (by decide)
  rw [if_neg h16] at h
  by_cases h17 : p.hasPgpKey = some true
  · rw [if_pos h17] at h; exact absurd h (by decide)
  rw [if_neg h17] at h
  by_cases h18 : p.hibpBreached = some true
  · rw [if_pos h18] at h; exact absurd h (by decide)
  rw [if_neg h18] at h
  by_cases h19 : p.isMajorProvider = true ∧ (smtp = some .error ∨ smtp = none)
  · rw [if_pos h19] at h; exact absurd h (by decide)
  rw [if_neg h19] at h
  exact absurd h (by decide)

lemma computeConfidence_le_5_core (smtp : Option SmtpVerdict)
    (riskFlags : List String) (implicitMx : Bool) (dh : Option DomainHealth)
    (p : ProviderSignals) (intel : Option IntelSignals)
    (hg : p.googleExists ≠ some true) (ha : p.appleExists ≠ some true)
    (hgrav : p.hasGravatar ≠ some true) (hgh : p.hasGitHub ≠ some true)
    (hpgp : p.hasPgpKey ≠ some true) (hhibp : p.hibpBreached ≠ some true)
    (hdh : dh ≠ some ⟨true, true⟩)
    (hcase : (smtp = some .rejected ∧ p.microsoftExists ≠ some true
        ∧ p.googleExists ≠ some true ∧ p.appleExists ≠ some true)
      ∨ p.microsoftExists = some false ∨ p.googleExists = some false
      ∨ p.appleExists = some false) :
    computeConfidence true (some true) smtp riskFlags implicitMx dh p intel ≤ 5 := by
  unfold computeConfidence
  rw [if_neg (by simp), if_neg (by simp), if_neg (by simp)]
  have hbase : applyProviderScores p (baseScore smtp p.isMajorProvider) ≤ 5 := by
    rcases hcase with ⟨hrej, hms, _, _⟩ | hfalse
    · subst hrej
      have h3 : baseScore (some .rejected) p.isMajorProvider = 3 := rfl
      have := applyProviderScores_le p (baseScore (some .rejected)
        p.isMajorProvider) hms hg ha hgrav hgh hpgp hhibp
      omega
    · exact applyProviderScores_le_5 p _ hg ha hgrav hgh hpgp hhibp hfalse
  have h1 := applyImplicitMx_le implicitMx
    (applyProviderScores p (baseScore smtp p.isMajorProvider))
  have h2 := applyHealth_le dh (applyImplicitMx implicitMx
    (applyProviderScores p (baseScore smtp p.isMajorProvider))) hdh
  have h3 := applyIntelOpt_le intel (applyHealth dh (applyImplicitMx implicitMx
    (applyProviderScores p (baseScore smtp p.isMajorProvider))))
  have h4 := applyRiskFlags_le riskFlags (applyIntelOpt intel
    (applyHealth dh (applyImplicitMx implicitMx
      (applyProviderScores p (baseScore smtp p.isMajorProvider)))))
  exact clampScore_le_5 _ (by omega)

/-- C1 (amended): an `Invalid` fusion status forces `confidence ≤ 5` whenever
the domain is non-empty, none of the Google/Apple/Gravatar/GitHub/PGP/HIBP
signals is positive, and the domain does not have both SPF and DMARC; a
syntactically invalid input always gets status `Invalid` and confidence
exactly 0.  (Without the extra provisos the bound fails, see the
counterexample.) -/
theorem invalid_status_confidence (syntaxOk : Bool) (domain : Option String)
    (mx : Option Bool) (smtp : Option SmtpVerdict) (riskFlags : List String)
    (implicitMx : Bool) (dh : Option DomainHealth) (p : ProviderSignals)
    (intel : Option IntelSignals)
    (hd1 : domain ≠ none) (hd2 : domain ≠ some "")
    (hg : p.googleExists ≠ some true) (ha : p.appleExists ≠ some true)
    (hgrav : p.hasGravatar ≠ some true) (hgh : p.hasGitHub ≠ some true)
    (hpgp : p.hasPgpKey ≠ some true) (hhibp : p.hibpBreached ≠ some true)
    (hdh : dh ≠ some ⟨true, true⟩) :
    (computeStatus syntaxOk domain mx smtp riskFlags p = .invalid →
      computeConfidence syntaxOk mx smtp riskFlags implicitMx dh p intel ≤ 5)
    ∧ (syntaxOk = false →
      computeConfidence syntaxOk mx smtp riskFlags implicitMx dh p intel = 0
      ∧ computeStatus syntaxOk domain mx smtp riskFlags p = .invalid) := by
  constructor
  · intro hInv
    cases syntaxOk with
    | false => norm_num [computeConfidence]
    | true =>
        cases mx with
        | none =>
            exfalso
            unfold computeStatus at hInv
            rw [if_neg (by simp [hd1, hd2]), if_pos rfl] at hInv
            exact absurd hInv (by decide)
        | some b =>
            cases b with
            | false => simp [computeConfidence]
            | true =>
                exact computeConfidence_le_5_core smtp riskFlags implicitMx dh
                  p intel hg ha hgrav hgh hpgp hhibp hdh
                  (computeStatus_invalid_cases domain smtp riskFlags p hd1 hd2 hInv)
  · intro hsyn
    subst hsyn
    exact ⟨by norm_num [computeConfidence], by simp [computeStatus]⟩

/-- C1 counterexample: a syntactically valid address whose mailbox was
SMTP-rejected, on a domain with both SPF and DMARC, gets status `Invalid`
with confidence 6 > 5. -/
theorem invalid_status_confidence_cex :
    computeStatus true (some "example.com") (some true) (some .rejected) []
      ⟨none, none, none, none, none, none, none, false⟩ = .invalid
    ∧ computeConfidence true (some true) (some .rejected) [] false
      (some ⟨true, true⟩) ⟨none, none, none, none, none, none, none, false⟩
      none = 6 := by
  exact ⟨by decide, by decide⟩

/-- Witness for `invalid_status_confidence` at a concrete input. -/
theorem invalid_status_confidence_witness :
    computeConfidence true (some true) (some .rejected) [] false none
      ⟨none, none, none, none, none, none, none, false⟩ none ≤ 5 :=
  (invalid_status_confidence true (some "a.co") (some true) (some .rejected)
    [] false none ⟨none, none, none, none, none, none, none, false⟩ none
    (by decide) (by decide) (by decide) (by decide) (by decide) (by decide)
    (by decide) (by decide) (by decide)).1 (by decide)

/-- The `USER_UNKNOWN_PATTERNS` list of `server/utils/smtp.ts`. -/
def USER_UNKNOWN_PATTERNS : List String :=
  ["5.1.1", "user unknown", "does not exist", "no such user",
   "mailbox not found", "recipient rejected", "invalid recipient",
   "unknown user", "user not found", "account does not exist", "no mailbox",
   "undeliverable", "addressee unknown"]

/-- JavaScript `String.prototype.includes` on character lists: `p` occurs as a
contiguous run of `s`. -/
def listIncludes (s p : List Char) : Bool :=
  (List.range (s.length + 1)).any fun i => p.isPrefixOf (s.drop i)

/-- `lower.includes(p)` on strings. -/
def strIncludes (s p : String) : Bool :=
  listIncludes s.data p.data

/-- ASCII lowercasing of one character. -/
def charToLower (c : Char) : Char :=
  if 'A' ≤ c ∧ c ≤ 'Z' then Char.ofNat (c.toNat + 32) else c

/-- `line.toLowerCase()`, modelled by ASCII lowercasing (all the patterns it
is compared against are ASCII). -/
def strToLower (s : String) : String :=
  ⟨s.data.map charToLower⟩

/-- `isUserUnknownResponse` of `server/utils/smtp.ts`: the lower-cased reply
line contains one of the user-unknown phrases. -/
def isUserUnknownResponse (line : String) : Bool :=
  USER_UNKNOWN_PATTERNS.any fun p => strIncludes (strToLower line) p

/-- `interpretAndFinish` of `server/utils/smtp.ts`, as a pure function of the
recorded RCPT reply codes and the real recipient's reply line; returns the
verdict together with the code handed to `finish`.  The source's `realOk`,
`realTmp`, `realBad`, `fakeOk` booleans are inlined. -/
def interpretAndFinish (realCode : Option Int) (realLine : String)
    (fakeCode : Option Int) : SmtpVerdict × Option Int :=
  match realCode, fakeCode with
  | none, _ => (.error, none)
  | some _, none => (.error, none)
  | some r, some f =>
      if 400 ≤ r ∧ r < 500 then (.greylisted, some r)
      else if (200 ≤ r ∧ r < 300) ∧ (200 ≤ f ∧ f < 300) then (.catchAll, some r)
      else if (200 ≤ r ∧ r < 300) ∧ ¬(200 ≤ f ∧ f < 300) then (.accepted, some r)
      else if 500 ≤ r then
        if isUserUnknownResponse realLine then (.rejected, some r)
        else (.error, some r)
      else (.error, some r)

/-- C3: two-probe catch-all detection: with both RCPT replies recorded and the
real recipient's code in the 2xx range, a 2xx code for the random recipient
yields `catch-all` and a non-2xx code yields `accepted`. -/
theorem smtp_two_probe (r f : Int) (line : String)
    (h2 : 200 ≤ r) (h3 : r < 300) :
    (200 ≤ f ∧ f < 300 →
      (interpretAndFinish (some r) line (some f)).1 = .catchAll)
    ∧ (¬(200 ≤ f ∧ f < 300) →
      (interpretAndFinish (some r) line (some f)).1 = .accepted) := by
  have hnc1 : ¬(400 ≤ r ∧ r < 500) := by omega
  constructor
  · intro hf
    simp only [interpretAndFinish]
    rw [if_neg hnc1, if_pos ⟨⟨h2, h3⟩, hf⟩]
  · intro hf
    simp only [interpretAndFinish]
    rw [if_neg hnc1, if_neg (fun hc => hf hc.2), if_pos ⟨⟨h2, h3⟩, hf⟩]

/-- Witness for `smtp_two_probe` at concrete reply codes. -/
theorem smtp_two_probe_witness :
    (interpretAndFinish (some 250) "250 OK" (some 250)).1 = .catchAll
    ∧ (interpretAndFinish (some 250) "250 OK" (some 550)).1 = .accepted :=
  ⟨(smtp_two_probe 250 250 "250 OK" (by decide) (by decide)).1 (by decide),
   (smtp_two_probe 250 550 "250 OK" (by decide) (by decide)).2 (by decide)⟩

/-- C4: a 5xx reply on RCPT to the real recipient is classified `rejected`
exactly when the reply line matches a user-unknown phrase, and `error`
otherwise. -/
theorem smtp_5xx_rejected (r f : Int) (line : String)
    (h5 : 500 ≤ r) (h6 : r < 600) :
    ((interpretAndFinish (some r) line (some f)).1 = .rejected ↔
      isUserUnknownResponse line = true)
    ∧ (isUserUnknownResponse line = false →
      (interpretAndFinish (some r) line (some f)).1 = .error) := by
  have hnc1 : ¬(400 ≤ r ∧ r < 500) := by omega
  have hnc2 : ¬((200 ≤ r ∧ r < 300) ∧ (200 ≤ f ∧ f < 300)) := by omega
  have hnc3 : ¬((200 ≤ r ∧ r < 300) ∧ ¬(200 ≤ f ∧ f < 300)) := by omega
  constructor
  · simp only [interpretAndFinish]
    rw [if_neg hnc1, if_neg hnc2, if_neg hnc3, if_pos h5]
    cases hU : isUserUnknownResponse line <;> simp [hU]
  · intro hf
    simp only [interpretAndFinish]
    rw [if_neg hnc1, if_neg hnc2, if_neg hnc3, if_pos h5, if_neg (by simp [hf])]

/-- Witness for `smtp_5xx_rejected` at a concrete reply. -/
theorem smtp_5xx_rejected_witness :
    (interpretAndFinish (some 550) "550 5.1.1 User unknown" (some 550)).1
      = .rejected :=
  (smtp_5xx_rejected 550 550 "550 5.1.1 User unknown" (by decide)
    (by decide)).1.mpr (by decide)

/-- `RequestBucket` of `server/utils/rate-limit.ts`. -/
structure RequestBucket where
  count : Nat
  expiresAt : Nat
deriving DecidableEq, Repr

/-- `DailyBucket` of `server/utils/rate-limit.ts`. -/
structure DailyBucket where
  emailCount : Nat
  resetsAt : Nat
  violationCount : Nat
deriving DecidableEq, Repr

/-- `getDailyBucket` of `server/utils/rate-limit.ts`: reuse the stored bucket
unless it is missing or expired, in which case a fresh bucket resetting at the
next UTC midnight (passed in as `nextMidnight`) replaces it. -/
def getDailyBucket (now : Nat) (stored : Option DailyBucket)
    (nextMidnight : Nat) : DailyBucket :=
  match stored with
  | some b => if b.resetsAt ≤ now then ⟨0, nextMidnight, 0⟩ else b
  | none => ⟨0, nextMidnight, 0⟩

/-- Result record for the rate-limit checks (`allowed`, optional
`retryAfterMs`), plus the updated per-identity state. -/
structure RateCheckOutcome where
  allowed : Bool
  retryAfterMs : Option Nat
  reqBucket : RequestBucket
  dailyBucket : Option DailyBucket
deriving DecidableEq, Repr

/-- `checkRequestRate` of `server/utils/rate-limit.ts` for one identity.
Inputs: the clock, the stored request bucket and daily bucket, the next UTC
midnight, and the per-minute maximum.  On overflow the daily bucket's
violation counter is incremented and the retry-after is
`min(window remainder, min(60s·2^(violations−1), 3600s))`. -/
def checkRequestRate (now : Nat) (stored : Option RequestBucket)
    (daily : Option DailyBucket) (nextMidnight maxPerMinute : Nat) :
    RateCheckOutcome :=
  match stored with
  | none => ⟨true, none, ⟨1, now + 60000⟩, daily⟩
  | some b =>
      if b.expiresAt ≤ now then ⟨true, none, ⟨1, now + 60000⟩, daily⟩
      else if b.count ≥ maxPerMinute then
        let d0 := getDailyBucket now daily nextMidnight
        let d := DailyBucket.mk d0.emailCount d0.resetsAt (d0.violationCount + 1)
        let backoffMs := min (60000 * 2 ^ (d.violationCount - 1)) 3600000
        ⟨false, some (min (b.expiresAt - now) backoffMs), b, some d⟩
      else ⟨true, none, ⟨b.count + 1, b.expiresAt⟩, daily⟩

/-- C5 counterexample: at `now = 0`, a full window bucket expiring at 30 s with
no prior violations yields retry-after 30 000 ms, not the claimed
`min(60s·2^(violations−1), 3600s) = 60 000 ms`. -/
theorem rpm_backoff_cex :
    (checkRequestRate 0 (some ⟨10, 30000⟩) (some ⟨0, 86400000, 0⟩)
      86400000 10).retryAfterMs = some 30000
    ∧ min (60000 * 2 ^ ((0 + 1 : Nat) - 1)) 3600000 = 60000 := by
  exact ⟨by decide, by decide⟩

/-- C5 (amended): when the per-identity RPM check fires while the window
bucket is full and the live daily bucket holds `v` violations, the violation
counter becomes `v + 1` and the returned retry-after equals
`min(window remainder, min(60s·2^((v+1)−1), 3600s))` — the backoff formula of
the claim capped additionally by the time left in the 60-second window. -/
theorem rpm_backoff (now nextMidnight maxPerMinute : Nat) (b : RequestBucket)
    (d : DailyBucket) (hwin : now < b.expiresAt) (hfull : b.count ≥ maxPerMinute)
    (hlive : now < d.resetsAt) :
    (checkRequestRate now (some b) (some d) nextMidnight maxPerMinute).allowed
      = false
    ∧ (checkRequestRate now (some b) (some d) nextMidnight
        maxPerMinute).dailyBucket
      = some ⟨d.emailCount, d.resetsAt, d.violationCount + 1⟩
    ∧ (checkRequestRate now (some b) (some d) nextMidnight
        maxPerMinute).retryAfterMs
      = some (min (b.expiresAt - now)
          (min (60000 * 2 ^ (d.violationCount + 1 - 1)) 3600000)) := by
  have hb : ¬(b.expiresAt ≤ now) := by omega
  have hd : ¬(d.resetsAt ≤ now) := by omega
  simp [checkRequestRate, getDailyBucket, hb, hd, hfull]

/-- Witness for `rpm_backoff` at a concrete state. -/
theorem rpm_backoff_witness :
    (checkRequestRate 0 (some ⟨10, 30000⟩) (some ⟨7, 86400000, 2⟩)
      86400000 10).retryAfterMs
      = some (min (30000 - 0) (min (60000 * 2 ^ (2 + 1 - 1)) 3600000)) :=
  (rpm_backoff 0 86400000 10 ⟨10, 30000⟩ ⟨7, 86400000, 2⟩ (by decide)
    (by decide) (by decide)).2.2

/-- Result of `checkDailyEmailCap`, plus the updated bucket. -/
structure DailyCapOutcome where
  allowed : Bool
  allowedCount : Nat
  retryAfterMs : Option Nat
  bucket : DailyBucket
deriving DecidableEq, Repr

/-- `checkDailyEmailCap` of `server/utils/rate-limit.ts`: with
`remaining = max(0, cap − used)` (truncated `Nat` subtraction), a zero
remainder refuses with retry-after `resetsAt − now`, otherwise
`min(requested, remaining)` is reserved by adding it to the bucket's
`emailCount`. -/
def checkDailyEmailCap (now : Nat) (stored : Option DailyBucket)
    (requestedCount dailyCap nextMidnight : Nat) : DailyCapOutcome :=
  let b := getDailyBucket now stored nextMidnight
  let remaining := dailyCap - b.emailCount
  if remaining = 0 then
    ⟨false, 0, some (b.resetsAt - now), b⟩
  else
    let allowedCount := min requestedCount remaining
    ⟨true, allowedCount, none,
      ⟨b.emailCount + allowedCount, b.resetsAt, b.violationCount⟩⟩

/-- C6: daily-cap reservation semantics against a live (unexpired) bucket:
an exhausted budget refuses with retry-after equal to the time until the
bucket's midnight-UTC reset and leaves the used counter untouched; otherwise
exactly `min(requested, remaining)` is reserved, returned as the allowed
count, and taking that many addresses from the batch (as the `/api/verify`
handler's `slice(0, allowedCount)` does) truncates it to that count. -/
theorem daily_cap_reserves (now nextMidnight requestedCount dailyCap : Nat)
    (d : DailyBucket) (hlive : now < d.resetsAt) :
    (dailyCap ≤ d.emailCount →
      (checkDailyEmailCap now (some d) requestedCount dailyCap
          nextMidnight).allowed = false
      ∧ (checkDailyEmailCap now (some d) requestedCount dailyCap
          nextMidnight).retryAfterMs = some (d.resetsAt - now)
      ∧ (checkDailyEmailCap now (some d) requestedCount dailyCap
          nextMidnight).bucket.emailCount = d.emailCount)
    ∧ (d.emailCount < dailyCap →
      (checkDailyEmailCap now (some d) requestedCount dailyCap
          nextMidnight).allowed = true
      ∧ (checkDailyEmailCap now (some d) requestedCount dailyCap
          nextMidnight).allowedCount
        = min requestedCount (dailyCap - d.emailCount)
      ∧ (checkDailyEmailCap now (some d) requestedCount dailyCap
          nextMidnight).bucket.emailCount
        = d.emailCount + min requestedCount (dailyCap - d.emailCount)
      ∧ ∀ emails : List String, emails.length = requestedCount →
          (emails.take ((checkDailyEmailCap now (some d) requestedCount
            dailyCap nextMidnight).allowedCount)).length
          = min requestedCount (dailyCap - d.emailCount)) := by
  have hd : ¬(d.resetsAt ≤ now) := by omega
  constructor
  · intro hcap
    have hrem : dailyCap - d.emailCount = 0 := by omega
    simp [checkDailyEmailCap, getDailyBucket, hd, hrem]
  · intro hlt
    have hrem : ¬(dailyCap - d.emailCount = 0) := by omega
    refine ⟨by simp [checkDailyEmailCap, getDailyBucket, hd, hrem], ?_, ?_, ?_⟩
    · simp [checkDailyEmailCap, getDailyBucket, hd, hrem]
    · simp [checkDailyEmailCap, getDailyBucket, hd, hrem]
    · intro emails hlen
      simp [checkDailyEmailCap, getDailyBucket, hd, hrem, List.length_take, hlen]

/-- Witness for `daily_cap_reserves` at a concrete state. -/
theorem daily_cap_reserves_witness :
    (checkDailyEmailCap 0 (some ⟨0, 86400000, 0⟩) 600 500 86400000).allowedCount
      = min 600 (500 - 0) :=
  ((daily_cap_reserves 0 86400000 600 500 ⟨0, 86400000, 0⟩
    (by decide)).2 (by decide)).2.1

/-- A per-identity concurrency tracker of `server/utils/rate-limit.ts`:
`none` models an identity absent from the `concurrency` map, `some a` a stored
tracker with `active = a` (`active` is a `Nat`, mirroring that the guarded
JavaScript counter never goes negative). -/
def ConcTracker := Option Nat

/-- `acquireConcurrency` of `server/utils/rate-limit.ts` for one identity: a
missing tracker is first created with `active = 0`; at or above the maximum
the call refuses and leaves the counter alone, otherwise it increments. -/
def acquireConcurrency (maxConcurrent : Nat) (tracker : Option Nat) :
    Bool × Option Nat :=
  let a := tracker.getD 0
  if a ≥ maxConcurrent then (false, some a)
  else (true, some (a + 1))

/-- `releaseConcurrency` of `server/utils/rate-limit.ts` for one identity:
decrement only an existing tracker with a strictly positive count. -/
def releaseConcurrency (tracker : Option Nat) : Option Nat :=
  match tracker with
  | some a => if a > 0 then some (a - 1) else some a
  | none => none

/-- A call against one identity's concurrency tracker. -/
inductive ConcOp where
  | acquire
  | release
deriving DecidableEq, Repr

/-- Replay a sequence of acquire/release calls for one identity. -/
def runConcOps (maxConcurrent : Nat) (ops : List ConcOp) (t : Option Nat) :
    Option Nat :=
  match ops with
  | [] => t
  | .acquire :: rest =>
      runConcOps maxConcurrent rest (acquireConcurrency maxConcurrent t).2
  | .release :: rest => runConcOps maxConcurrent rest (releaseConcurrency t)

/-- The `active` count an identity's tracker stands for. -/
def activeOf (t : Option Nat) : Nat := t.getD 0

lemma acquireConcurrency_le (maxConcurrent : Nat) (t : Option Nat)
    (h : activeOf t ≤ maxConcurrent) :
    activeOf (acquireConcurrency maxConcurrent t).2 ≤ maxConcurrent := by
  simp only [acquireConcurrency, activeOf] at *
  split <;> simp_all
  omega

lemma releaseConcurrency_le (t : Option Nat) (m : Nat)
    (h : activeOf t ≤ m) : activeOf (releaseConcurrency t) ≤ m := by
  cases t with
  | none => simpa [releaseConcurrency] using h
  | some a =>
      have ha : a ≤ m := by simpa [activeOf] using h
      by_cases hp : a > 0
      · simp only [releaseConcurrency, if_pos hp, activeOf, Option.getD_some]
        omega
      · simp only [releaseConcurrency, if_neg hp, activeOf, Option.getD_some]
        omega

lemma runConcOps_le (maxConcurrent : Nat) (ops : List ConcOp) :
    ∀ t : Option Nat, activeOf t ≤ maxConcurrent →
      activeOf (runConcOps maxConcurrent ops t) ≤ maxConcurrent := by
  induction ops with
  | nil => intro t h; simpa [runConcOps] using h
  | cons op rest ih =>
      intro t h
      cases op with
      | acquire =>
          exact ih _ (acquireConcurrency_le maxConcurrent t h)
      | release =>
          exact ih _ (releaseConcurrency_le t maxConcurrent h)

/-- C10: the per-identity concurrency counter stays within
`[0, maxConcurrent]` (the lower bound is the `Nat` typing of the counter,
faithful to the guards in the source) after any sequence of acquire/release
calls starting from no tracker, and a release against a missing tracker is a
no-op. -/
theorem concurrency_bounded (maxConcurrent : Nat) (ops : List ConcOp) :
    activeOf (runConcOps maxConcurrent ops none) ≤ maxConcurrent
    ∧ releaseConcurrency none = none := by
  refine ⟨runConcOps_le maxConcurrent ops none ?_, rfl⟩
  simp [activeOf]

/-- The DNS failure modes `lookupMx` of `server/utils/dns-cache.ts`
distinguishes: the two fallback codes, the raced timeout rejection (whose
error has no `code`), and any other error. -/
inductive DnsErr where
  | enotfound
  | enodata
  | timeout
  | other
deriving DecidableEq, Repr

/-- `MxLookupResult` of `server/utils/dns-cache.ts`. -/
structure MxLookupResult where
  hasMx : Bool
  hosts : List String
  viaImplicitMx : Bool
deriving DecidableEq, Repr

/-- One `resolveMx` record. -/
structure MxRecord where
  priority : Nat
  exchange : String
deriving DecidableEq, Repr

/-- `fallbackToAddressRecord` of `server/utils/dns-cache.ts`: `v4`/`v6` are
the settled `resolve4`/`resolve6` outcomes (`none` = rejected, e.g. by
timeout), which contribute no addresses; any resolved address yields the
implicit-MX result `\x7b hasMx: true, hosts: [domain], viaImplicitMx: true \x7d`. -/
def fallbackToAddressRecord (domain : String)
    (v4 v6 : Option (List String)) : MxLookupResult :=
  let addrs := v4.getD [] ++ v6.getD []
  if addrs.length > 0 then ⟨true, [domain], true⟩
  else ⟨false, [], false⟩

/-- `lookupMx` of `server/utils/dns-cache.ts` on a cache miss, as a pure
function of the settled DNS outcomes (`Except.error` = the `resolveMx` call
rejected with that code).  A populated MX answer is sorted by ascending
priority and mapped to exchanges; an empty answer or an
`ENOTFOUND`/`ENODATA` rejection falls back to the address records; any other
rejection (including the raced timeout) returns `none` (unknown). -/
def lookupMx (domain : String) (mxRes : Except DnsErr (List MxRecord))
    (v4 v6 : Option (List String)) : Option MxLookupResult :=
  match mxRes with
  | .ok records =>
      if records.length > 0 then
        some ⟨true,
          (records.mergeSort fun a b => a.priority ≤ b.priority).map
            (fun r => r.exchange), false⟩
      else some (fallbackToAddressRecord domain v4 v6)
  | .error e =>
      match e with
      | .enotfound => some (fallbackToAddressRecord domain v4 v6)
      | .enodata => some (fallbackToAddressRecord domain v4 v6)
      | .timeout => none
      | .other => none

/-- C7: when the MX query rejects with `ENOTFOUND`/`ENODATA` or answers an
empty record set while at least one A or AAAA address resolves, `lookupMx`
returns the implicit-MX result; a timeout or any other error yields unknown
(`none`). -/
theorem mx_fallback_and_unknown (domain : String)
    (v4 v6 : Option (List String))
    (haddr : (v4.getD [] ++ v6.getD []).length > 0) :
    lookupMx domain (.error .enotfound) v4 v6 = some ⟨true, [domain], true⟩
    ∧ lookupMx domain (.error .enodata) v4 v6 = some ⟨true, [domain], true⟩
    ∧ lookupMx domain (.ok []) v4 v6 = some ⟨true, [domain], true⟩
    ∧ lookupMx domain (.error .timeout) v4 v6 = none
    ∧ lookupMx domain (.error .other) v4 v6 = none := by
  refine ⟨?_, ?_, ?_, rfl, rfl⟩
  · simp only [lookupMx, fallbackToAddressRecord]
    rw [if_pos haddr]
  · simp only [lookupMx, fallbackToAddressRecord]
    rw [if_pos haddr]
  · simp only [lookupMx, fallbackToAddressRecord]
    rw [if_neg (by decide), if_pos haddr]

/-- Witness for `mx_fallback_and_unknown` at a concrete outcome. -/
theorem mx_fallback_and_unknown_witness :
    lookupMx "example.com" (.error .enotfound) (some ["93.184.216.34"]) none
      = some ⟨true, ["example.com"], true⟩ :=
  (mx_fallback_and_unknown "example.com" (some ["93.184.216.34"]) none
    (by decide)).1

/-- `checkGlobalCap` of `server/utils/rate-limit.ts`: reset the global counter
at the day boundary, then refuse if the reservation would exceed the global
cap, else reserve.  Returns `(allowed, new counter, new reset time)`. -/
def checkGlobalCap (now globalDailyEmails globalResetsAt requestedCount
    globalCap nextMidnight : Nat) : Bool × Nat × Nat :=
  let cnt := if globalResetsAt ≤ now then 0 else globalDailyEmails
  let rst := if globalResetsAt ≤ now then nextMidnight else globalResetsAt
  if cnt + requestedCount > globalCap then (false, cnt, rst)
  else (true, cnt + requestedCount, rst)

/-- The `runtimeConfig` fields the `/api/verify` admission path reads, with
the defaults of `nuxt.config.ts` (per-IP values; the agent variants of the
three rate limits are selected the same way and are omitted). -/
structure RuntimeConfig where
  maxEmailsPerRequest : Nat
  rateLimitRequestsPerMinute : Nat
  rateLimitDailyEmailCap : Nat
  rateLimitMaxConcurrent : Nat
  rateLimitGlobalDailyCap : Nat
deriving DecidableEq, Repr

/-- The `runtimeConfig` defaults of `nuxt.config.ts`. -/
def defaultRuntimeConfig : RuntimeConfig :=
  ⟨500, 10, 500, 2, 50000⟩

/-- The rate-limit state the `/api/verify` handler consults for one
identity, plus the global counter. -/
structure AdmissionState where
  reqBucket : Option RequestBucket
  dailyBucket : Option DailyBucket
  concTracker : Option Nat
  globalDailyEmails : Nat
  globalResetsAt : Nat
deriving DecidableEq, Repr

/-- The admission prefix of the `/api/verify` handler
(`server/api/verify.post.ts`), in source order: request-rate gate (429),
concurrency gate (429), body shape check (400), batch-size cap (400), daily
email cap (429) with truncation of the batch to the reserved count, global
ceiling (503).  Returns the list of admitted addresses; verification work
happens only after all of these. -/
def verifyAdmission (now nextMidnight : Nat) (st : AdmissionState)
    (cfg : RuntimeConfig) (body : Option (List String)) :
    Except Nat (List String) :=
  let rate := checkRequestRate now st.reqBucket st.dailyBucket nextMidnight
    cfg.rateLimitRequestsPerMinute
  if rate.allowed = false then .error 429
  else
    let conc := acquireConcurrency cfg.rateLimitMaxConcurrent st.concTracker
    if conc.1 = false then .error 429
    else
      match body with
      | none => .error 400
      | some emails =>
          if emails.length > cfg.maxEmailsPerRequest then .error 400
          else
            let dailyRes := checkDailyEmailCap now rate.dailyBucket
              emails.length cfg.rateLimitDailyEmailCap nextMidnight
            if dailyRes.allowed = false then .error 429
            else
              let emailsToProcess := emails.take dailyRes.allowedCount
              let g := checkGlobalCap now st.globalDailyEmails
                st.globalResetsAt emailsToProcess.length
                cfg.rateLimitGlobalDailyCap nextMidnight
              if g.1 = false then .error 503
              else .ok emailsToProcess

/-- C8: the configured per-request address cap defaults to 500
(`nuxt.config.ts`), and a request whose email list exceeds the configured cap
is refused with a 400 before any verification (given it passed the two gates
checked earlier in the handler). -/
theorem batch_size_cap (now nextMidnight : Nat) (st : AdmissionState)
    (cfg : RuntimeConfig) (emails : List String)
    (hrate : (checkRequestRate now st.reqBucket st.dailyBucket nextMidnight
      cfg.rateLimitRequestsPerMinute).allowed = true)
    (hconc : (acquireConcurrency cfg.rateLimitMaxConcurrent
      st.concTracker).1 = true)
    (hlen : emails.length > cfg.maxEmailsPerRequest) :
    verifyAdmission now nextMidnight st cfg (some emails) = .error 400
    ∧ defaultRuntimeConfig.maxEmailsPerRequest = 500 := by
  constructor
  · simp only [verifyAdmission, hrate, hconc]
    rw [if_neg (by decide), if_neg (by decide), if_pos hlen]
  · rfl

/-- Witness for `batch_size_cap`: 501 addresses against the default cap. -/
theorem batch_size_cap_witness :
    verifyAdmission 0 86400000 ⟨none, none, none, 0, 86400000⟩
      defaultRuntimeConfig (some (List.replicate 501 "a@b.co"))
      = .error 400 :=
  (batch_size_cap 0 86400000 ⟨none, none, none, 0, 86400000⟩
    defaultRuntimeConfig (List.replicate 501 "a@b.co") (by decide) (by decide)
    (by rw [List.length_replicate]; decide)).1

/-- `/^[a-z]\x7b1,2\x7d$/.test(local)`: the local part is one or two lowercase
ASCII letters ("initials"). -/
def isInitials (localPart : String) : Bool :=
  (localPart.data.length == 1 || localPart.data.length == 2)
    && localPart.data.all fun c => 'a' ≤ c ∧ c ≤ 'z'

/-- The number of `/\d/g` matches: count of ASCII digits in the local part. -/
def digitMatchCount (localPart : String) : Nat :=
  localPart.data.countP fun c => c.isDigit

/-- The flag computation of `analyzeLocalPart`
(`server/utils/pattern-analysis.ts`).  The Shannon entropy is computed with
floating-point `Math.log2` in the source and none of the flag decisions below
is settled by its exact rounding, so it is passed in as a rational.  The digit
share `digits / length` is exact rational division (0 at length 0, matching
the JavaScript `NaN` comparing false); string length counts code points. -/
def analyzeLocalPartFlags (entropy : ℚ) (localPart : String) : List String :=
  (if entropy > 3.5 ∧ localPart.data.length > 10
    then ["Looks auto-generated"] else [])
  ++ (if localPart.data.length ≤ 2 ∧ isInitials localPart = false
    then ["Unusually short local part"] else [])
  ++ (if (digitMatchCount localPart : ℚ) / (localPart.data.length : ℚ) > 1/2
        ∧ localPart.data.length > 5
    then ["Mostly numeric local part"] else [])

/-- C9 counterexample: the two-letter localPart part "ab" (length ≤ 2) raises no
"unusually short" flag — the analyzer exempts one- and two-letter initials. -/
theorem short_flag_cex :
    "Unusually short local part" ∉ analyzeLocalPartFlags 1 "ab" := by
  unfold analyzeLocalPartFlags
  rw [if_neg (fun hc => absurd hc.2 (by decide)),
    if_neg (fun hc => absurd hc.2 (by decide)),
    if_neg (fun hc => absurd hc.2 (by decide))]
  simp

/-- C9 (amended): the analyzer raises the "unusually short" flag exactly when
the local part has length at most 2 and is not one or two lowercase ASCII
letters (the initials exemption), independently of the entropy value. -/
theorem short_flag_iff (entropy : ℚ) (localPart : String) :
    "Unusually short local part" ∈ analyzeLocalPartFlags entropy localPart ↔
    (localPart.data.length ≤ 2 ∧ isInitials localPart = false) := by
  unfold analyzeLocalPartFlags
  split_ifs with h1 h2 h3 <;> simp_all
